import Mathlib

/-!
Verification of the prediction-dispatch path of the label-platform backend.

The development shallowly embeds the Go handler `PredictImage`
(internal/interfaces/http/handler, the version with the rate-limited
dispatch), the redis queue constants, and the use case `UpdateImage`
(internal/domain/usecase).  External collaborators (redis, the database,
the object store) are modelled operationally: the lock store is a map
from keys to absolute expiry times, queues are lists of pushed elements,
and fallible calls are driven by an explicit oracle recording the outcome
of each external call.  Byte strings (JSON payloads) are modelled as their
UTF-8 decoding, i.e. as `String`.
-/

/-- A value of a `gin.H` response map: the handler only ever stores strings
and integers in its response bodies. -/
inductive GinVal where
  | str (s : String)
  | int (n : Int)
deriving DecidableEq

/-- A `gin.H` response body, in the order the Go map literal lists its keys. -/
abbrev GinH := List (String × GinVal)

/-- The domain entity `entity.Image`.  `datatypes.JSON` fields (byte slices
that may be nil) are modelled as `Option String`; timestamps as `Nat`
(seconds); the `uuid.UUID` identifier as its canonical string form. -/
structure Image where
  ID : String
  Name : String
  MinioPath : String
  GroundTruth : Option String
  PredictedLabels : Option String
  EvaluationScores : Option String
  CreatedAt : Nat
  UpdatedAt : Nat
deriving DecidableEq

/-- Queue name constant `redis.QueueGPT`. -/
def QueueGPT : String := "label-platform-queue-gpt"

/-- Queue name constant `redis.QueueClaude`. -/
def QueueClaude : String := "label-platform-queue-claude"

/-- Queue name constant `redis.QueueGemini`. -/
def QueueGemini : String := "label-platform-queue-gemini"

/-- Queue name constant `redis.QueueResult`. -/
def QueueResult : String := "label-platform-queue-result"

/-- The standard base64 alphabet used by `base64.StdEncoding`. -/
def b64Alphabet : List Char :=
  "ABCDEFGHIJKLMNOPQRSTUVWXYZabcdefghijklmnopqrstuvwxyz0123456789+/".toList

/-- Character of the standard base64 alphabet at index `n` (0 ≤ n < 64). -/
def b64Char (n : Nat) : Char := b64Alphabet.getD n 'A'

/-- `base64.StdEncoding.EncodeToString`: standard base64 with padding,
over a list of bytes. -/
def base64Encode : List Nat → List Char
  | [] => []
  | [b1] => [b64Char (b1 / 4), b64Char (b1 % 4 * 16), '=', '=']
  | [b1, b2] =>
      [b64Char (b1 / 4), b64Char (b1 % 4 * 16 + b2 / 16), b64Char (b2 % 16 * 4), '=']
  | b1 :: b2 :: b3 :: rest =>
      b64Char (b1 / 4) :: b64Char (b1 % 4 * 16 + b2 / 16) ::
      b64Char (b2 % 16 * 4 + b3 / 64) :: b64Char (b3 % 64) :: base64Encode rest

/-- Lowercase hex digit, as produced by Go in `\u00xx` escapes. -/
def hexDigit (n : Nat) : Char := "0123456789abcdef".toList.getD n '0'

/-- Escaping of one character of a JSON string as performed by Go
`encoding/json` with its default HTML escaping. -/
def goEscapeChar (c : Char) : String :=
  if c = '"' then "\\\""
  else if c = '\\' then "\\\\"
  else if c = '\n' then "\\n"
  else if c = '\r' then "\\r"
  else if c = '\t' then "\\t"
  else if c = '<' then "\\u003c"
  else if c = '>' then "\\u003e"
  else if c = '&' then "\\u0026"
  else if c.toNat < 32 then
    String.mk ['\\', 'u', '0', '0', hexDigit (c.toNat / 16), hexDigit (c.toNat % 16)]
  else if c = Char.ofNat 0x2028 then "\\u2028"
  else if c = Char.ofNat 0x2029 then "\\u2029"
  else String.mk [c]

/-- Go `encoding/json` escaping of a whole string. -/
def goEscapeString (s : String) : String :=
  String.join (s.toList.map goEscapeChar)

/-- The serialized dispatch payload: `json.Marshal` of the Go map
`{"id": image.ID.String(), "image_base64": imgBase64}`.  Go marshals map
keys in sorted order, and "id" sorts before "image_base64". -/
def goPayloadJSON (idS : String) (b64 : String) : String :=
  "\x7b\"id\":\"" ++ goEscapeString idS ++ "\",\"image_base64\":\"" ++
    goEscapeString b64 ++ "\"\x7d"

/-- Is `c` a hexadecimal digit (as accepted by `uuid.Parse`)? -/
def isHexChar (c : Char) : Bool :=
  c.isDigit || ('a' ≤ c && c ≤ 'f') || ('A' ≤ c && c ≤ 'F')

/-- Model of `uuid.Parse` followed by `.String()`, restricted to the
canonical 36-character `xxxxxxxx-xxxx-xxxx-xxxx-xxxxxxxxxxxx` form that the
platform itself generates (the urn-prefixed, braced and 32-character
variants the library also accepts are not exercised by this code base).
`String()` renders the accepted identifier in lowercase. -/
def uuidParse (s : String) : Option String :=
  let cs := s.toList
  if cs.length = 36 ∧
      (List.range 36).all (fun i =>
        if i = 8 ∨ i = 13 ∨ i = 18 ∨ i = 23 then cs.getD i ' ' = '-'
        else isHexChar (cs.getD i ' ')) then
    some (String.mk (cs.map Char.toLower))
  else
    none

/-- The lock key computed by the handler: `"predict-lock:" + id.String()`. -/
def lockKeyOf (id : String) : String := "predict-lock:" ++ id

/-- The cooldown TTL used by the handler: `5 * time.Minute`, in seconds. -/
def cooldownTTL : Nat := 300

/-- The shared state touched by the handler: the redis key-value store
(lock keys mapped to their absolute expiry instant, in seconds), the redis
list queues (elements in push order), and a log of every `RPush` call the
handler issued, in program order, successful or not. -/
structure St where
  lockExpiry : String → Option Nat
  queues : String → List String
  pushLog : List (String × String)

/-- `TTL` command at instant `now`: remaining whole seconds if the key is
present and unexpired, `-2` otherwise (redis reports `-2` for a missing
key, and expired keys behave as missing). -/
def ttlCmd (s : St) (now : Nat) (key : String) : Int :=
  match s.lockExpiry key with
  | none => -2
  | some e => if now < e then (e : Int) - (now : Int) else -2

/-- `SetNX key value ttl` at instant `now`: succeeds (and installs expiry
`now + ttl`) exactly when the key is absent or expired; reports `false`
and leaves the store unchanged otherwise.  Atomic at the store. -/
def setNX (s : St) (now : Nat) (key : String) (ttl : Nat) : Bool × St :=
  match s.lockExpiry key with
  | some e =>
      if now < e then (false, s)
      else (true, { s with lockExpiry := fun k => if k = key then some (now + ttl) else s.lockExpiry k })
  | none =>
      (true, { s with lockExpiry := fun k => if k = key then some (now + ttl) else s.lockExpiry k })

/-- Outcomes of the external calls a single `PredictImage` run performs,
fixed up front: whether the two redis control calls return transport
errors, what the database lookup returns (`none` = error), whether the
object-store fetch and the body read succeed, and which queue pushes fail.
The handler source never reads the `RPush` results, so `pushErr` only
determines whether an element lands in the queue, never the control flow. -/
structure Oracle where
  ttlErr : Bool
  setnxErr : Bool
  setnxErrMsg : String
  dbImage : Option Image
  getObjectOk : Bool
  readResult : Option (List Nat)
  pushErr : String → Bool

/-- One `RPush` call: always logged; appends to the queue exactly when the
oracle says this push does not fail.  The handler discards the result. -/
def rpush (o : Oracle) (s : St) (q : String) (v : String) : St :=
  { s with
    pushLog := s.pushLog ++ [(q, v)]
    queues :=
      if o.pushErr q then s.queues
      else fun k => if k = q then s.queues q ++ [v] else s.queues k }

/-- The store after a successful `SetNX` of `key` at instant `now` with the
cooldown TTL. -/
def withLock (s : St) (now : Nat) (key : String) : St :=
  { s with lockExpiry := fun k => if k = key then some (now + cooldownTTL) else s.lockExpiry k }

/-- The tail of the handler after the cooldown marker has been acquired:
load the image row (404 on error), fetch the object and read its bytes
(500 on either failure), base64-encode, build and marshal the payload
once, `RPush` it to the GPT, Claude and Gemini queues ignoring their
results, answer 200 with a message and the id. -/
def dispatchAfterGate (o : Oracle) (s1 : St) : (Nat × GinH) × St :=
  match o.dbImage with
  | none => ((404, [("error", .str "Image not found")]), s1)
  | some image =>
    if ¬ o.getObjectOk then
      ((500, [("error", .str "Failed to get image from MinIO")]), s1)
    else
      match o.readResult with
      | none => ((500, [("error", .str "Failed to read image data")]), s1)
      | some imgBytes =>
        let imgBase64 := String.mk (base64Encode imgBytes)
        let payloadJSON := goPayloadJSON image.ID imgBase64
        let s2 := rpush o s1 QueueGPT payloadJSON
        let s3 := rpush o s2 QueueClaude payloadJSON
        let s4 := rpush o s3 QueueGemini payloadJSON
        ((200, [("message", .str "Image pushed to model queues"),
                ("id", .str image.ID)]), s4)

/-- The handler `PredictImage`, translated statement by statement from the
Go source: parse the id; read the TTL of the lock key and fast-reject with
429 if a live lock is seen; `SetNX` the lock key with a 5-minute TTL (500
on transport error, 429 with a re-read TTL if the key was already
present); load the image row (404 on error); fetch the object and read its
bytes (500 on either failure); base64-encode, build and marshal the
payload once; `RPush` it to the GPT, Claude and Gemini queues ignoring
their results; answer 200 with a message and the id.  All steps of one run
are modelled at the single instant `now`. -/
def PredictImage (o : Oracle) (s : St) (now : Nat) (idStr : String) :
    (Nat × GinH) × St :=
  match uuidParse idStr with
  | none => ((400, [("error", .str "Invalid ID format")]), s)
  | some id =>
    let lockKey := lockKeyOf id
    let ttl := ttlCmd s now lockKey
    if ¬ o.ttlErr ∧ 0 < ttl then
      ((429, [("error", .str "Rate limited. Please wait before retrying."),
              ("retry_after_seconds", .int ttl)]), s)
    else if o.setnxErr then
      ((500, [("error", .str "Redis error"), ("details", .str o.setnxErrMsg)]), s)
    else
      let okSt := setNX s now lockKey cooldownTTL
      if ¬ okSt.1 then
        let ttl2 := ttlCmd okSt.2 now lockKey
        ((429, [("error", .str "Rate limited. Please wait before retrying."),
                ("retry_after_seconds", .int ttl2)]), okSt.2)
      else
        dispatchAfterGate o okSt.2

/-- A Go `map[string]any` argument of the update use case.  The frame
properties under verification never inspect the values, so values are
modelled as strings (the shape actually sent by the platform workers). -/
abbrev GoMap := List (String × String)

/-- Insertion into a key-sorted association list (helper for the sorted
key order of Go map marshalling). -/
def insertByKey (p : String × String) : List (String × String) → List (String × String)
  | [] => [p]
  | q :: rest => if p.1 ≤ q.1 then p :: q :: rest else q :: insertByKey p rest

/-- Sort an association list by key, as Go `json.Marshal` orders map keys. -/
def sortByKey : List (String × String) → List (String × String)
  | [] => []
  | p :: rest => insertByKey p (sortByKey rest)

/-- `json.Marshal` of a `map[string]string`: a JSON object with the keys
in sorted order and Go string escaping. -/
def jsonMarshalMap (m : GoMap) : String :=
  "\x7b" ++
    String.intercalate ","
      ((sortByKey m).map fun p =>
        "\"" ++ goEscapeString p.1 ++ "\":\"" ++ goEscapeString p.2 ++ "\"") ++
    "\x7d"

/-- The use case `UpdateImage` (internal/domain/usecase): load the row by
id (error if missing), overwrite `PredictedLabels` with the marshalled
argument only when that argument is non-nil, likewise `EvaluationScores`,
stamp `UpdatedAt` with the current time, and store the row (`updateOk`
reports whether the store call succeeds; on failure the use case returns
the error and the row is not persisted). -/
def UpdateImage (getByID : String → Option Image) (updateOk : Bool)
    (id : String) (predictedLabels evaluationScores : Option GoMap) (now : Nat) :
    Except String Image :=
  match getByID id with
  | none => .error "failed to get image"
  | some image0 =>
    let image1 :=
      match predictedLabels with
      | some pl => { image0 with PredictedLabels := some (jsonMarshalMap pl) }
      | none => image0
    let image2 :=
      match evaluationScores with
      | some es => { image1 with EvaluationScores := some (jsonMarshalMap es) }
      | none => image1
    let image3 := { image2 with UpdatedAt := now }
    if updateOk then .ok image3 else .error "failed to update image"

/-!
Concurrent gate model.  The cooldown gate of `PredictImage` (the TTL read
followed by the `SetNX`) is the only part of the handler that races with
other calls: redis executes each command atomically, so a concurrent run
of many handler calls is an interleaving of their individual TTL-read and
`SetNX` events against the shared lock state.  The model below runs each
call as a two-step process over the shared `Option Nat` lock (absolute
expiry of the single lock key all the calls contend on), under an
arbitrary schedule of timestamped events.  A process in phase `won t`
passed the gate at instant `t` (its `SetNX` succeeded) and is the only
kind of process that goes on to fetch and publish; a process in phase
`limited r` answered 429 with `retry_after_seconds = r`.
-/

/-- Progress of one handler call through the cooldown gate. -/
inductive Phase where
  | start
  | afterRead
  | won (t : Nat)
  | limited (r : Int)
deriving DecidableEq

/-- Remaining TTL of the shared lock at instant `t` (`-2` when absent or
expired), as the `TTL` command reports it. -/
def ttlAt (lock : Option Nat) (t : Nat) : Int :=
  match lock with
  | none => -2
  | some e => if t < e then (e : Int) - (t : Int) else -2

/-- One atomic event of a call at instant `t`: in `start` it executes the
TTL read (fast-reject on a live lock, else proceed); in `afterRead` it
executes the `SetNX` (win and install expiry `t + cooldownTTL` when the
lock is absent or expired, else re-read the TTL and reject).  Completed
phases take no further steps. -/
def gateStep (lock : Option Nat) (ph : Phase) (t : Nat) : Option Nat × Phase :=
  match ph with
  | .start =>
      if 0 < ttlAt lock t then (lock, .limited (ttlAt lock t))
      else (lock, .afterRead)
  | .afterRead =>
      match lock with
      | some e =>
          if t < e then (lock, .limited (ttlAt lock t))
          else (some (t + cooldownTTL), .won t)
      | none => (some (t + cooldownTTL), .won t)
  | .won t0 => (lock, .won t0)
  | .limited r => (lock, .limited r)

/-- Run a schedule of `(process index, instant)` events over the shared
lock and the process phases; events naming no process are skipped. -/
def gateRun (lock : Option Nat) (phs : List Phase) :
    List (Nat × Nat) → Option Nat × List Phase
  | [] => (lock, phs)
  | (pid, t) :: rest =>
      match phs[pid]? with
      | none => gateRun lock phs rest
      | some ph =>
          let st := gateStep lock ph t
          gateRun st.1 (phs.set pid st.2) rest

/-- Did this call pass the cooldown gate (and hence fetch and publish)? -/
def isWon : Phase → Bool
  | .won _ => true
  | _ => false

/-- Was this call rejected with 429? -/
def isLimited : Phase → Bool
  | .limited _ => true
  | _ => false

/-- The instants at which calls passed the gate. -/
def wonTimes (phs : List Phase) : List Nat :=
  phs.filterMap fun ph => match ph with | .won t => some t | _ => none

/-- Number of calls that passed the gate. -/
def wonCount (phs : List Phase) : Nat := (phs.filter isWon).length

/-!
Concrete instances used by the witness and counterexample theorems.
-/

/-- A concrete canonical resource identifier. -/
def uuidA : String := "11111111-2222-3333-4444-555555555555"

/-- A second concrete canonical resource identifier. -/
def uuidB : String := "aaaaaaaa-bbbb-cccc-dddd-eeeeeeeeeeee"

/-- The empty shared state: no lock keys, empty queues, empty push log. -/
def st0 : St := { lockExpiry := fun _ => none, queues := fun _ => [], pushLog := [] }

/-- A shared state in which the lock key for `uuidA` is held until
instant 100. -/
def stLockedA : St :=
  { lockExpiry := fun k => if k = lockKeyOf uuidA then some 100 else none
    queues := fun _ => []
    pushLog := [] }

/-- A concrete stored image row with identifier `uuidA`. -/
def imgA : Image :=
  { ID := uuidA, Name := "shot.png", MinioPath := "screenshots/shot.png",
    GroundTruth := some "\x7b\x7d", PredictedLabels := none,
    EvaluationScores := none, CreatedAt := 7, UpdatedAt := 7 }

/-- A concrete stored image row with identifier `uuidB`. -/
def imgB : Image :=
  { ID := uuidB, Name := "shot2.png", MinioPath := "screenshots/shot2.png",
    GroundTruth := none, PredictedLabels := some "\x7b\x7d",
    EvaluationScores := none, CreatedAt := 9, UpdatedAt := 9 }

/-- An oracle under which every external call of a dispatch run succeeds,
returning `imgA` from the database and the bytes `[1, 2, 3]` from the
object store. -/
def oracleOK : Oracle :=
  { ttlErr := false, setnxErr := false, setnxErrMsg := "", dbImage := some imgA,
    getObjectOk := true, readResult := some [1, 2, 3], pushErr := fun _ => false }

/-- Like `oracleOK` but the `RPush` to the Claude queue fails. -/
def oracleClaudePushFails : Oracle :=
  { oracleOK with pushErr := fun q => q = QueueClaude }

/-- Like `oracleOK` but returning `imgB`. -/
def oracleOKB : Oracle :=
  { oracleOK with dbImage := some imgB }

/-- An oracle whose database lookup fails (no stored row). -/
def oracleNoRow : Oracle :=
  { oracleOK with dbImage := none }

/-- An oracle whose object-store fetch fails. -/
def oracleFetchFails : Oracle :=
  { oracleOK with getObjectOk := false }

/-- The serialized payload of a dispatch of `imgA` with content
`[1, 2, 3]`. -/
def payloadA : String := goPayloadJSON uuidA (String.mk (base64Encode [1, 2, 3]))

/-!
Helper lemmas.
-/

/-- An `RPush` never touches the lock keys. -/
theorem rpush_lockExpiry (o : Oracle) (s : St) (q v : String) :
    (rpush o s q v).lockExpiry = s.lockExpiry := rfl

/-- An `RPush` appends its queue and element to the push log. -/
theorem rpush_pushLog (o : Oracle) (s : St) (q v : String) :
    (rpush o s q v).pushLog = s.pushLog ++ [(q, v)] := rfl

/-- An `RPush` leaves every other queue unchanged. -/
theorem rpush_queues_ne (o : Oracle) (s : St) (q v q' : String) (h : q' ≠ q) :
    (rpush o s q v).queues q' = s.queues q' := by
  unfold rpush
  by_cases he : o.pushErr q <;> simp [he, h]

/-- A successful `RPush` appends the element to its queue. -/
theorem rpush_queues_ok (o : Oracle) (s : St) (q v : String) (h : o.pushErr q = false) :
    (rpush o s q v).queues q = s.queues q ++ [v] := by
  unfold rpush
  simp [h]

/-- A failed `RPush` leaves its queue unchanged. -/
theorem rpush_queues_err (o : Oracle) (s : St) (q v : String) (h : o.pushErr q = true) :
    (rpush o s q v).queues q = s.queues q := by
  unfold rpush
  simp [h]

/-- When the lock key is absent or expired, `SetNX` succeeds and installs
the cooldown expiry. -/
theorem setNX_of_ttl_nonpos (s : St) (now : Nat) (key : String)
    (h : ttlCmd s now key ≤ 0) :
    setNX s now key cooldownTTL = (true, withLock s now key) := by
  unfold setNX withLock
  cases hk : s.lockExpiry key with
  | none => rfl
  | some e =>
      have hlt : ¬ now < e := by
        intro hlt
        rw [ttlCmd, hk] at h
        simp only [if_pos hlt] at h
        omega
      simp [hlt]

/-- When the lock key is present and unexpired, `SetNX` fails and leaves
the store unchanged. -/
theorem setNX_of_ttl_pos (s : St) (now : Nat) (key : String)
    (h : 0 < ttlCmd s now key) :
    setNX s now key cooldownTTL = (false, s) := by
  unfold setNX
  cases hk : s.lockExpiry key with
  | none =>
      exfalso
      rw [ttlCmd, hk] at h
      simp at h
  | some e =>
      have hlt : now < e := by
        by_contra hlt
        rw [ttlCmd, hk] at h
        simp [hlt] at h
      simp [hlt]

/-- A handler run that passes the whole cooldown gate (id parses, no live
lock is seen, the `SetNX` does not error and wins) reduces to the
dispatch tail over the state with the cooldown marker installed. -/
theorem PredictImage_gate_pass (o : Oracle) (s : St) (now : Nat) (idStr id : String)
    (hid : uuidParse idStr = some id)
    (httl : ttlCmd s now (lockKeyOf id) ≤ 0)
    (hsx : o.setnxErr = false) :
    PredictImage o s now idStr = dispatchAfterGate o (withLock s now (lockKeyOf id)) := by
  unfold PredictImage
  rw [hid]
  have h1 : ¬ (¬ o.ttlErr ∧ 0 < ttlCmd s now (lockKeyOf id)) := by
    rintro ⟨-, h2⟩
    omega
  simp only [h1, if_false, hsx, Bool.false_eq_true,
    setNX_of_ttl_nonpos s now (lockKeyOf id) httl, not_true, ite_false]

/-- The dispatch tail never touches the lock keys. -/
theorem dispatchAfterGate_lockExpiry (o : Oracle) (s1 : St) :
    (dispatchAfterGate o s1).2.lockExpiry = s1.lockExpiry := by
  unfold dispatchAfterGate
  cases o.dbImage with
  | none => rfl
  | some image =>
      cases hg : o.getObjectOk with
      | false => simp
      | true =>
          cases o.readResult with
          | none => simp
          | some imgBytes => simp [rpush_lockExpiry]

/-- After the gate passes, the lock key carries the cooldown expiry. -/
theorem lockExpiry_after_pass (o : Oracle) (s : St) (now : Nat) (idStr id : String)
    (hid : uuidParse idStr = some id)
    (httl : ttlCmd s now (lockKeyOf id) ≤ 0)
    (hsx : o.setnxErr = false) :
    (PredictImage o s now idStr).2.lockExpiry (lockKeyOf id) = some (now + cooldownTTL) := by
  rw [PredictImage_gate_pass o s now idStr id hid httl hsx,
    dispatchAfterGate_lockExpiry]
  simp [withLock]

/-- On a live lock (and an error-free TTL read) the handler fast-rejects
with 429 and returns the state untouched. -/
theorem fast_reject_eq (o : Oracle) (s : St) (now : Nat) (idStr id : String)
    (hid : uuidParse idStr = some id)
    (hterr : o.ttlErr = false)
    (httl : 0 < ttlCmd s now (lockKeyOf id)) :
    PredictImage o s now idStr =
      ((429, [("error", GinVal.str "Rate limited. Please wait before retrying."),
              ("retry_after_seconds", GinVal.int (ttlCmd s now (lockKeyOf id)))]), s) := by
  have h1 : ¬ o.ttlErr ∧ 0 < ttlCmd s now (lockKeyOf id) := by
    constructor
    · simp [hterr]
    · exact httl
  simp only [PredictImage, hid]
  rw [if_pos h1]

/-- The dispatch tail on a fully successful run: 200 acknowledgment and
three `RPush` calls of the single serialized payload, in the order GPT,
Claude, Gemini. -/
theorem dispatch_success_eq (o : Oracle) (s1 : St) (image : Image) (bytes : List Nat)
    (hdb : o.dbImage = some image)
    (hg : o.getObjectOk = true)
    (hr : o.readResult = some bytes) :
    dispatchAfterGate o s1 =
      ((200, [("message", GinVal.str "Image pushed to model queues"),
              ("id", GinVal.str image.ID)]),
        rpush o (rpush o (rpush o s1 QueueGPT
            (goPayloadJSON image.ID (String.mk (base64Encode bytes)))) QueueClaude
            (goPayloadJSON image.ID (String.mk (base64Encode bytes)))) QueueGemini
            (goPayloadJSON image.ID (String.mk (base64Encode bytes)))) := by
  simp [dispatchAfterGate, hdb, hg, hr]

/-- Remaining TTL of a freshly installed cooldown marker, read before it
expires. -/
theorem ttlCmd_withLock (s : St) (now : Nat) (key : String) (now' : Nat)
    (h : now' < now + cooldownTTL) :
    ttlCmd (withLock s now key) now' key =
      ((now + cooldownTTL : Nat) : Int) - (now' : Int) := by
  simp [ttlCmd, withLock, h]

/-- The three queue name constants are pairwise distinct. -/
theorem queue_names_distinct :
    QueueGPT ≠ QueueClaude ∧ QueueGPT ≠ QueueGemini ∧ QueueClaude ≠ QueueGemini := by
  refine ⟨?_, ?_, ?_⟩ <;> decide

/-!
Claim theorems.
-/

/-- Claim C5: whenever a cooldown lock for the resource already exists
with remaining TTL > 0 (and the TTL read does not error), the call
answers 429 with `retry_after_seconds` equal to that TTL and performs no
further work at all: the shared state (lock keys, queues, push log) is
returned exactly as it was, and the result does not depend on any of the
downstream collaborators (the oracle is arbitrary beyond the TTL read). -/
theorem C5_fast_reject (o : Oracle) (s : St) (now : Nat) (idStr id : String)
    (hid : uuidParse idStr = some id)
    (hterr : o.ttlErr = false)
    (httl : 0 < ttlCmd s now (lockKeyOf id)) :
    PredictImage o s now idStr =
      ((429, [("error", GinVal.str "Rate limited. Please wait before retrying."),
              ("retry_after_seconds", GinVal.int (ttlCmd s now (lockKeyOf id)))]), s) :=
  fast_reject_eq o s now idStr id hid hterr httl

/-- Witness for C5: a concrete run against a state holding the lock for
100 more seconds answers 429 with `retry_after_seconds = 100` and leaves
the state untouched. -/
theorem C5_fast_reject_witness :
    PredictImage oracleOK stLockedA 0 uuidA =
      ((429, [("error", GinVal.str "Rate limited. Please wait before retrying."),
              ("retry_after_seconds", GinVal.int 100)]), stLockedA) :=
  C5_fast_reject oracleOK stLockedA 0 uuidA uuidA rfl rfl (by decide)

/-- Claim C8: the lock key is computed deterministically as the fixed
prefix `"predict-lock:"` concatenated with the identifier — two
identifiers share a lock key exactly when they are equal — and a run that
acquires the cooldown marker installs it with the fixed 5-minute (300 s)
TTL. -/
theorem C8_lock_key :
    (∀ a b : String, lockKeyOf a = lockKeyOf b ↔ a = b) ∧
    (∀ (o : Oracle) (s : St) (now : Nat) (idStr id : String),
      uuidParse idStr = some id →
      ttlCmd s now (lockKeyOf id) ≤ 0 →
      o.setnxErr = false →
      (PredictImage o s now idStr).2.lockExpiry (lockKeyOf id) = some (now + cooldownTTL)) := by
  constructor
  · intro a b
    constructor
    · intro h
      have hd := congrArg String.data h
      simp only [lockKeyOf, String.data_append] at hd
      exact String.ext (List.append_cancel_left hd)
    · intro h
      rw [h]
  · intro o s now idStr id hid httl hsx
    exact lockExpiry_after_pass o s now idStr id hid httl hsx

/-- Witness for C8: the lock keys of two concrete identifiers coincide
exactly when the identifiers do, and a concrete successful run installs
the cooldown marker with expiry `now + 300`. -/
theorem C8_lock_key_witness :
    lockKeyOf uuidA = lockKeyOf uuidA ∧
    (PredictImage oracleOK st0 7 uuidA).2.lockExpiry (lockKeyOf uuidA) = some (7 + cooldownTTL) :=
  ⟨(C8_lock_key.1 uuidA uuidA).mpr rfl,
   C8_lock_key.2 oracleOK st0 7 uuidA uuidA rfl (by decide) rfl⟩

/-- Claim C9 (implicit behavior): the cooldown marker is installed before
the existence of the image row is checked.  A call for an identifier with
no stored row answers 404, yet the state comes back with the 5-minute
cooldown lock installed, the queues and push log untouched; and every
retry of the same identifier within the TTL window answers 429 even
though nothing was ever dispatched. -/
theorem C9_lock_before_lookup (o : Oracle) (s : St) (now : Nat) (idStr id : String)
    (hid : uuidParse idStr = some id)
    (httl : ttlCmd s now (lockKeyOf id) ≤ 0)
    (hsx : o.setnxErr = false)
    (hdb : o.dbImage = none) :
    PredictImage o s now idStr =
      ((404, [("error", GinVal.str "Image not found")]), withLock s now (lockKeyOf id)) ∧
    (PredictImage o s now idStr).2.lockExpiry (lockKeyOf id) = some (now + cooldownTTL) ∧
    (PredictImage o s now idStr).2.queues = s.queues ∧
    (PredictImage o s now idStr).2.pushLog = s.pushLog ∧
    (∀ (o' : Oracle) (now' : Nat), o'.ttlErr = false → now' < now + cooldownTTL →
      PredictImage o' (PredictImage o s now idStr).2 now' idStr =
        ((429, [("error", GinVal.str "Rate limited. Please wait before retrying."),
                ("retry_after_seconds",
                  GinVal.int (((now + cooldownTTL : Nat) : Int) - (now' : Int)))]),
          (PredictImage o s now idStr).2)) := by
  have hrun : PredictImage o s now idStr =
      ((404, [("error", GinVal.str "Image not found")]), withLock s now (lockKeyOf id)) := by
    rw [PredictImage_gate_pass o s now idStr id hid httl hsx]
    simp [dispatchAfterGate, hdb]
  refine ⟨hrun, ?_, ?_, ?_, ?_⟩
  · rw [hrun]
    simp [withLock]
  · rw [hrun]
    simp [withLock]
  · rw [hrun]
    simp [withLock]
  · intro o' now' hterr' hlt'
    rw [hrun]
    have hpos : 0 < ttlCmd (withLock s now (lockKeyOf id)) now' (lockKeyOf id) := by
      rw [ttlCmd_withLock s now (lockKeyOf id) now' hlt']
      omega
    rw [fast_reject_eq o' (withLock s now (lockKeyOf id)) now' idStr id hid hterr' hpos,
      ttlCmd_withLock s now (lockKeyOf id) now' hlt']

/-- Witness for C9: a concrete call for an identifier with no stored row
answers 404 and installs the cooldown marker, and a retry 10 seconds
later answers 429 with 290 seconds of retry delay. -/
theorem C9_lock_before_lookup_witness :
    PredictImage oracleNoRow st0 0 uuidA =
      ((404, [("error", GinVal.str "Image not found")]), withLock st0 0 (lockKeyOf uuidA)) ∧
    PredictImage oracleOK (PredictImage oracleNoRow st0 0 uuidA).2 10 uuidA =
      ((429, [("error", GinVal.str "Rate limited. Please wait before retrying."),
              ("retry_after_seconds", GinVal.int (((0 + cooldownTTL : Nat) : Int) - (10 : Nat)))]),
        (PredictImage oracleNoRow st0 0 uuidA).2) := by
  have h := C9_lock_before_lookup oracleNoRow st0 0 uuidA uuidA rfl (by decide) rfl rfl
  exact ⟨h.1, h.2.2.2.2 oracleOK 10 rfl (by decide)⟩

/-- Claim C4: when the cooldown marker is acquired but the object-store
fetch of the content fails (either the fetch call or the body read), the
call answers 500 with the corresponding fetch-failure message, no queue
receives anything (queues and push log are exactly as before), and the
cooldown lock is still present with a strictly positive TTL. -/
theorem C4_fetch_failure (o : Oracle) (s : St) (now : Nat) (idStr id : String) (image : Image)
    (hid : uuidParse idStr = some id)
    (httl : ttlCmd s now (lockKeyOf id) ≤ 0)
    (hsx : o.setnxErr = false)
    (hdb : o.dbImage = some image)
    (hfail : o.getObjectOk = false ∨ o.readResult = none) :
    (PredictImage o s now idStr).1.1 = 500 ∧
    ((PredictImage o s now idStr).1.2 =
        [("error", GinVal.str "Failed to get image from MinIO")] ∨
      (PredictImage o s now idStr).1.2 =
        [("error", GinVal.str "Failed to read image data")]) ∧
    (PredictImage o s now idStr).2.queues = s.queues ∧
    (PredictImage o s now idStr).2.pushLog = s.pushLog ∧
    (PredictImage o s now idStr).2.lockExpiry (lockKeyOf id) = some (now + cooldownTTL) ∧
    0 < ttlCmd (PredictImage o s now idStr).2 now (lockKeyOf id) := by
  rw [PredictImage_gate_pass o s now idStr id hid httl hsx]
  have hstate : (dispatchAfterGate o (withLock s now (lockKeyOf id))).2 =
      withLock s now (lockKeyOf id) ∧
      ((dispatchAfterGate o (withLock s now (lockKeyOf id))).1 =
        (500, [("error", GinVal.str "Failed to get image from MinIO")]) ∨
       (dispatchAfterGate o (withLock s now (lockKeyOf id))).1 =
        (500, [("error", GinVal.str "Failed to read image data")])) := by
    rcases hfail with hg | hr
    · constructor
      · simp [dispatchAfterGate, hdb, hg]
      · left
        simp [dispatchAfterGate, hdb, hg]
    · cases hgo : o.getObjectOk with
      | false =>
          constructor
          · simp [dispatchAfterGate, hdb, hgo]
          · left
            simp [dispatchAfterGate, hdb, hgo]
      | true =>
          constructor
          · simp [dispatchAfterGate, hdb, hgo, hr]
          · right
            simp [dispatchAfterGate, hdb, hgo, hr]
  have hlock : (dispatchAfterGate o (withLock s now (lockKeyOf id))).2.lockExpiry
      (lockKeyOf id) = some (now + cooldownTTL) := by
    rw [hstate.1]
    simp [withLock]
  have hc : 0 < cooldownTTL := by decide
  refine ⟨?_, ?_, ?_, ?_, hlock, ?_⟩
  · rcases hstate.2 with h | h <;> rw [h]
  · rcases hstate.2 with h | h
    · left
      rw [h]
    · right
      rw [h]
  · rw [hstate.1]
    simp [withLock]
  · rw [hstate.1]
    simp [withLock]
  · rw [hstate.1, ttlCmd_withLock s now (lockKeyOf id) now (by omega)]
    omega

/-- Witness for C4: a concrete run whose object fetch fails answers 500,
pushes nothing, and leaves the lock with a positive TTL. -/
theorem C4_fetch_failure_witness :
    (PredictImage oracleFetchFails st0 0 uuidA).1.1 = 500 ∧
    (PredictImage oracleFetchFails st0 0 uuidA).2.pushLog = st0.pushLog ∧
    0 < ttlCmd (PredictImage oracleFetchFails st0 0 uuidA).2 0 (lockKeyOf uuidA) := by
  have h := C4_fetch_failure oracleFetchFails st0 0 uuidA uuidA imgA rfl (by decide) rfl rfl
    (Or.inl rfl)
  exact ⟨h.1, h.2.2.2.1, h.2.2.2.2.2⟩

/-- Counterexample to claim C1: a concrete dispatch in which exactly one
of the three queue publishes fails (the Claude push) returns *the same*
response as an entirely successful dispatch — HTTP 200 with the success
message and the id, naming no succeeded or failed queue — so no
`PartialDispatchFailure` is reported.  The successful publishes are kept
and the cooldown lock is held, but the failure is silently ignored. -/
theorem C1_counterexample :
    (PredictImage oracleClaudePushFails st0 0 uuidA).1 =
      (PredictImage oracleOK st0 0 uuidA).1 ∧
    (PredictImage oracleClaudePushFails st0 0 uuidA).1 =
      (200, [("message", GinVal.str "Image pushed to model queues"),
             ("id", GinVal.str uuidA)]) ∧
    (PredictImage oracleClaudePushFails st0 0 uuidA).2.queues QueueGPT = [payloadA] ∧
    (PredictImage oracleClaudePushFails st0 0 uuidA).2.queues QueueGemini = [payloadA] ∧
    (PredictImage oracleClaudePushFails st0 0 uuidA).2.queues QueueClaude = [] ∧
    (PredictImage oracleClaudePushFails st0 0 uuidA).2.lockExpiry (lockKeyOf uuidA) =
      some cooldownTTL :=
  ⟨rfl, rfl, rfl, rfl, rfl, rfl⟩

/-- Claim C1 as amended: when the cooldown gate passes and the fetch
succeeds, whatever subset of the three queue publishes fails, the handler
does not roll back the publishes that succeeded and leaves the cooldown
lock held, but it does not report any failure either: it always returns
the full-success 200 acknowledgment, because the publish results are
discarded. -/
theorem C1_publish_failures_ignored (o : Oracle) (s : St) (now : Nat) (idStr id : String)
    (image : Image) (bytes : List Nat)
    (hid : uuidParse idStr = some id)
    (httl : ttlCmd s now (lockKeyOf id) ≤ 0)
    (hsx : o.setnxErr = false)
    (hdb : o.dbImage = some image)
    (hg : o.getObjectOk = true)
    (hr : o.readResult = some bytes) :
    (PredictImage o s now idStr).1 =
      (200, [("message", GinVal.str "Image pushed to model queues"),
             ("id", GinVal.str image.ID)]) ∧
    (PredictImage o s now idStr).2.lockExpiry (lockKeyOf id) = some (now + cooldownTTL) ∧
    (∀ q, (q = QueueGPT ∨ q = QueueClaude ∨ q = QueueGemini) →
      (PredictImage o s now idStr).2.queues q =
        if o.pushErr q then s.queues q
        else s.queues q ++ [goPayloadJSON image.ID (String.mk (base64Encode bytes))]) := by
  have d12 := queue_names_distinct.1
  have d13 := queue_names_distinct.2.1
  have d23 := queue_names_distinct.2.2
  rw [PredictImage_gate_pass o s now idStr id hid httl hsx,
    dispatch_success_eq o (withLock s now (lockKeyOf id)) image bytes hdb hg hr]
  refine ⟨rfl, ?_, ?_⟩
  · simp [rpush_lockExpiry, withLock]
  · intro q hq
    rcases hq with h | h | h <;> subst h
    · cases hp : o.pushErr QueueGPT <;>
        simp [rpush, ite_apply, withLock, hp, d12, d13]
    · cases hp : o.pushErr QueueClaude <;>
        simp [rpush, ite_apply, withLock, hp, Ne.symm d12, d23]
    · cases hp : o.pushErr QueueGemini <;>
        simp [rpush, ite_apply, withLock, hp, Ne.symm d13, Ne.symm d23]

/-- Witness for the amended C1: on the concrete run whose Claude push
fails, the response is the full-success acknowledgment, the lock is held,
the GPT queue keeps its appended payload, and the Claude queue is
unchanged. -/
theorem C1_publish_failures_ignored_witness :
    (PredictImage oracleClaudePushFails st0 0 uuidA).1 =
      (200, [("message", GinVal.str "Image pushed to model queues"),
             ("id", GinVal.str imgA.ID)]) ∧
    (PredictImage oracleClaudePushFails st0 0 uuidA).2.queues QueueGPT =
      st0.queues QueueGPT ++ [goPayloadJSON imgA.ID (String.mk (base64Encode [1, 2, 3]))] ∧
    (PredictImage oracleClaudePushFails st0 0 uuidA).2.queues QueueClaude =
      st0.queues QueueClaude := by
  have h := C1_publish_failures_ignored oracleClaudePushFails st0 0 uuidA uuidA imgA
    [1, 2, 3] rfl (by decide) rfl rfl rfl rfl
  refine ⟨h.1, ?_, ?_⟩
  · rw [h.2.2 QueueGPT (Or.inl rfl)]
    norm_num [oracleClaudePushFails, oracleOK]
    decide
  · rw [h.2.2 QueueClaude (Or.inr (Or.inl rfl))]
    norm_num [oracleClaudePushFails, oracleOK]

/-- Counterexample to claim C3: on a concrete fully successful dispatch
(fetch and all three publishes succeed) the acknowledgment carries only a
fixed message and the resource identifier — its keys are exactly
`message` and `id` — and no list of published queues. -/
theorem C3_counterexample :
    (PredictImage oracleOKB st0 0 uuidB).1 =
      (200, [("message", GinVal.str "Image pushed to model queues"),
             ("id", GinVal.str uuidB)]) ∧
    (PredictImage oracleOKB st0 0 uuidB).1.2.map Prod.fst = ["message", "id"] ∧
    (PredictImage oracleOKB st0 0 uuidB).2.queues QueueGPT =
      [goPayloadJSON uuidB (String.mk (base64Encode [1, 2, 3]))] ∧
    (PredictImage oracleOKB st0 0 uuidB).2.queues QueueClaude =
      [goPayloadJSON uuidB (String.mk (base64Encode [1, 2, 3]))] ∧
    (PredictImage oracleOKB st0 0 uuidB).2.queues QueueGemini =
      [goPayloadJSON uuidB (String.mk (base64Encode [1, 2, 3]))] :=
  ⟨rfl, rfl, rfl, rfl, rfl⟩

/-- Claim C3 as amended: when the fetch and all three queue publishes
succeed, the operation returns a 200 acknowledgment containing the
resource identifier together with a fixed message — and nothing else; the
list of queues published to is not part of the acknowledgment (its only
keys are `message` and `id`), while each of the three queues receives the
payload. -/
theorem C3_success_ack (o : Oracle) (s : St) (now : Nat) (idStr id : String)
    (image : Image) (bytes : List Nat)
    (hid : uuidParse idStr = some id)
    (httl : ttlCmd s now (lockKeyOf id) ≤ 0)
    (hsx : o.setnxErr = false)
    (hdb : o.dbImage = some image)
    (hg : o.getObjectOk = true)
    (hr : o.readResult = some bytes)
    (hpush : ∀ q, o.pushErr q = false) :
    (PredictImage o s now idStr).1 =
      (200, [("message", GinVal.str "Image pushed to model queues"),
             ("id", GinVal.str image.ID)]) ∧
    (PredictImage o s now idStr).1.2.map Prod.fst = ["message", "id"] ∧
    (PredictImage o s now idStr).2.queues QueueGPT =
      s.queues QueueGPT ++ [goPayloadJSON image.ID (String.mk (base64Encode bytes))] ∧
    (PredictImage o s now idStr).2.queues QueueClaude =
      s.queues QueueClaude ++ [goPayloadJSON image.ID (String.mk (base64Encode bytes))] ∧
    (PredictImage o s now idStr).2.queues QueueGemini =
      s.queues QueueGemini ++ [goPayloadJSON image.ID (String.mk (base64Encode bytes))] := by
  have d12 := queue_names_distinct.1
  have d13 := queue_names_distinct.2.1
  have d23 := queue_names_distinct.2.2
  rw [PredictImage_gate_pass o s now idStr id hid httl hsx,
    dispatch_success_eq o (withLock s now (lockKeyOf id)) image bytes hdb hg hr]
  refine ⟨rfl, rfl, ?_, ?_, ?_⟩
  · simp [rpush, ite_apply, withLock, hpush QueueGPT, hpush QueueClaude, hpush QueueGemini,
      d12, d13]
  · simp [rpush, ite_apply, withLock, hpush QueueGPT, hpush QueueClaude, hpush QueueGemini,
      Ne.symm d12, d23]
  · simp [rpush, ite_apply, withLock, hpush QueueGPT, hpush QueueClaude, hpush QueueGemini,
      Ne.symm d13, Ne.symm d23]

/-- Witness for the amended C3: concrete fully successful run: the
acknowledgment has exactly the keys `message` and `id`, and the GPT queue
received the payload. -/
theorem C3_success_ack_witness :
    (PredictImage oracleOK st0 0 uuidA).1 =
      (200, [("message", GinVal.str "Image pushed to model queues"),
             ("id", GinVal.str imgA.ID)]) ∧
    (PredictImage oracleOK st0 0 uuidA).2.queues QueueGPT =
      st0.queues QueueGPT ++ [goPayloadJSON imgA.ID (String.mk (base64Encode [1, 2, 3]))] := by
  have h := C3_success_ack oracleOK st0 0 uuidA uuidA imgA [1, 2, 3] rfl (by decide) rfl rfl
    rfl rfl (fun q => rfl)
  exact ⟨h.1, h.2.2.1⟩

/-- Claim C7: an accepted dispatch base64-encodes the fetched bytes,
builds the payload from the resource identifier and the encoded content,
marshals it once, and issues exactly three `RPush` calls of that single
serialized payload, in the fixed order GPT, Claude, Gemini (the push log
extends by precisely those three entries, all carrying the identical
serialized bytes). -/
theorem C7_fanout_order (o : Oracle) (s : St) (now : Nat) (idStr id : String)
    (image : Image) (bytes : List Nat)
    (hid : uuidParse idStr = some id)
    (httl : ttlCmd s now (lockKeyOf id) ≤ 0)
    (hsx : o.setnxErr = false)
    (hdb : o.dbImage = some image)
    (hg : o.getObjectOk = true)
    (hr : o.readResult = some bytes) :
    (PredictImage o s now idStr).2.pushLog =
      s.pushLog ++
        [(QueueGPT, goPayloadJSON image.ID (String.mk (base64Encode bytes))),
         (QueueClaude, goPayloadJSON image.ID (String.mk (base64Encode bytes))),
         (QueueGemini, goPayloadJSON image.ID (String.mk (base64Encode bytes)))] := by
  rw [PredictImage_gate_pass o s now idStr id hid httl hsx,
    dispatch_success_eq o (withLock s now (lockKeyOf id)) image bytes hdb hg hr]
  simp [rpush, withLock]

/-- Witness for C7: the push log of a concrete accepted dispatch extends
by the GPT, Claude, Gemini entries of the single serialized payload. -/
theorem C7_fanout_order_witness :
    (PredictImage oracleOK st0 0 uuidA).2.pushLog =
      st0.pushLog ++
        [(QueueGPT, goPayloadJSON imgA.ID (String.mk (base64Encode [1, 2, 3]))),
         (QueueClaude, goPayloadJSON imgA.ID (String.mk (base64Encode [1, 2, 3]))),
         (QueueGemini, goPayloadJSON imgA.ID (String.mk (base64Encode [1, 2, 3])))] :=
  C7_fanout_order oracleOK st0 0 uuidA uuidA imgA [1, 2, 3] rfl (by decide) rfl rfl rfl rfl

/-- Claim C10: whenever `UpdateImage` succeeds, the stored row it returns
keeps `PredictedLabels` unchanged when the predicted-labels argument is
nil and keeps `EvaluationScores` unchanged when the evaluation-scores
argument is nil; in every case `ID`, `Name`, `MinioPath`, `GroundTruth`
and `CreatedAt` are untouched and `UpdatedAt` is stamped with the current
time. -/
theorem C10_update_frame (getByID : String → Option Image) (updateOk : Bool)
    (id : String) (pl es : Option GoMap) (now : Nat) (img' : Image)
    (h : UpdateImage getByID updateOk id pl es now = .ok img') :
    ∃ img0, getByID id = some img0 ∧
      (pl = none → img'.PredictedLabels = img0.PredictedLabels) ∧
      (es = none → img'.EvaluationScores = img0.EvaluationScores) ∧
      img'.ID = img0.ID ∧ img'.Name = img0.Name ∧ img'.MinioPath = img0.MinioPath ∧
      img'.GroundTruth = img0.GroundTruth ∧ img'.CreatedAt = img0.CreatedAt ∧
      img'.UpdatedAt = now := by
  cases hg : getByID id with
  | none =>
      exfalso
      simp [UpdateImage, hg] at h
  | some img0 =>
      refine ⟨img0, rfl, ?_⟩
      cases hu : updateOk with
      | false =>
          exfalso
          simp [UpdateImage, hg, hu] at h
      | true =>
          simp only [UpdateImage, hg, hu, if_true] at h
          cases pl with
          | none =>
              cases es with
              | none =>
                  simp only [Except.ok.injEq] at h
                  subst h
                  simp
              | some es0 =>
                  simp only [Except.ok.injEq] at h
                  subst h
                  simp
          | some pl0 =>
              cases es with
              | none =>
                  simp only [Except.ok.injEq] at h
                  subst h
                  simp
              | some es0 =>
                  simp only [Except.ok.injEq] at h
                  subst h
                  simp

/-- Witness for C10: updating a concrete stored row with a nil
predicted-labels argument and a concrete evaluation-scores map leaves the
untouched fields in place and stamps the update time. -/
theorem C10_update_frame_witness :
    UpdateImage (fun _ => some imgB) true uuidB none (some [("accuracy", "0.9")]) 42 =
      .ok { imgB with EvaluationScores := some (jsonMarshalMap [("accuracy", "0.9")]),
                      UpdatedAt := 42 } ∧
    ∃ img0, (fun (_ : String) => some imgB) uuidB = some img0 ∧
      ({ imgB with EvaluationScores := some (jsonMarshalMap [("accuracy", "0.9")]),
                   UpdatedAt := 42 } : Image).PredictedLabels = img0.PredictedLabels ∧
      ({ imgB with EvaluationScores := some (jsonMarshalMap [("accuracy", "0.9")]),
                   UpdatedAt := 42 } : Image).UpdatedAt = 42 := by
  constructor
  · rfl
  · have h := C10_update_frame (fun _ => some imgB) true uuidB none
      (some [("accuracy", "0.9")]) 42
      { imgB with EvaluationScores := some (jsonMarshalMap [("accuracy", "0.9")]),
                  UpdatedAt := 42 } rfl
    obtain ⟨img0, hg, hpl, hes, hrest⟩ := h
    exact ⟨img0, hg, hpl rfl, hrest.2.2.2.2.2⟩

/-- Replacing a position of a list by the value it already holds changes
no lookup. -/
theorem set_same_getElem (phs : List Phase) (q : Nat) (ph : Phase)
    (hq : phs[q]? = some ph) (i : Nat) : (phs.set q ph)[i]? = phs[i]? := by
  by_cases hiq : q = i
  · subst hiq
    have hl : q < phs.length := by
      by_contra hh
      push_neg at hh
      rw [List.getElem?_eq_none hh] at hq
      exact absurd hq (by simp)
    rw [List.getElem?_set_self hl, hq]
  · exact List.getElem?_set_ne hiq

/-- Claim C6: a call that passed the preliminary TTL read but whose
`SetNX` finds the lock key already present (it lost the race) re-reads
the TTL and is rejected with that TTL as the retry delay, leaving the
lock untouched; and a rejected call stays rejected for the rest of any
run — it never passes the gate, so it never fetches or publishes. -/
theorem C6_lost_race :
    (∀ (e t : Nat), t < e →
      gateStep (some e) Phase.afterRead t =
        (some e, Phase.limited (ttlAt (some e) t)) ∧
      ttlAt (some e) t = (e : Int) - (t : Int) ∧
      0 < ttlAt (some e) t) ∧
    (∀ (lock : Option Nat) (phs : List Phase) (sched : List (Nat × Nat)) (pid : Nat) (r : Int),
      phs[pid]? = some (Phase.limited r) →
      ((gateRun lock phs sched).2)[pid]? = some (Phase.limited r)) := by
  constructor
  · intro e t ht
    refine ⟨?_, ?_, ?_⟩
    · simp [gateStep, ht]
    · simp [ttlAt, ht]
    · simp [ttlAt, ht]
  · intro lock phs sched
    induction sched generalizing lock phs with
    | nil =>
        intro pid r h
        simpa [gateRun] using h
    | cons ev rest ih =>
        intro pid r h
        obtain ⟨q, t⟩ := ev
        simp only [gateRun]
        cases hq : phs[q]? with
        | none => exact ih lock phs pid r h
        | some ph =>
            apply ih
            by_cases hpq : q = pid
            · subst hpq
              have hph : ph = Phase.limited r := by
                rw [h] at hq
                exact (Option.some.inj hq).symm
              subst hph
              rw [show gateStep lock (Phase.limited r) t = (lock, Phase.limited r) from rfl]
              rw [set_same_getElem phs _ (Phase.limited r) hq]
              exact h
            · rw [List.getElem?_set_ne hpq]
              exact h

/-- Witness for C6: with the lock held until instant 300, the `SetNX`
step of a call at instant 10 yields a 290-second rejection without
touching the lock, and a rejected call is still rejected after further
scheduled events. -/
theorem C6_lost_race_witness :
    gateStep (some 300) Phase.afterRead 10 =
      (some 300, Phase.limited (ttlAt (some 300) 10)) ∧
    ((gateRun (some 300) [Phase.limited 290, Phase.start] [(0, 20), (1, 20)]).2)[0]? =
      some (Phase.limited 290) :=
  ⟨(C6_lost_race.1 300 10 (by decide)).1,
   C6_lost_race.2 (some 300) [Phase.limited 290, Phase.start] [(0, 20), (1, 20)] 0 290 rfl⟩

/-- A position that holds a value is inside the list. -/
theorem lt_length_of_lookup (phs : List Phase) (q : Nat) (ph : Phase)
    (hq : phs[q]? = some ph) : q < phs.length :=
  (List.getElem?_eq_some_iff.mp hq).1

/-- Setting a position to a phase of equal `p`-status keeps the
`p`-count. -/
theorem filter_length_set_eq (p : Phase → Bool) :
    ∀ (phs : List Phase) (q : Nat) (ph ph' : Phase),
      phs[q]? = some ph → p ph = p ph' →
      ((phs.set q ph').filter p).length = (phs.filter p).length := by
  intro phs
  induction phs with
  | nil =>
      intro q ph ph' hq _
      simp at hq
  | cons a l ih =>
      intro q ph ph' hq hp
      cases q with
      | zero =>
          have ha : a = ph := by simpa using hq
          subst ha
          simp only [List.set]
          cases hpa : p a <;>
            simp [List.filter_cons, hpa, ← hp]
      | succ n =>
          rw [List.getElem?_cons_succ] at hq
          simp only [List.set]
          cases hpa : p a <;>
            simp [List.filter_cons, hpa, ih n ph ph' hq hp]

/-- Setting a `p`-false position to a `p`-true phase grows the `p`-count
by one. -/
theorem filter_length_set_add (p : Phase → Bool) :
    ∀ (phs : List Phase) (q : Nat) (ph ph' : Phase),
      phs[q]? = some ph → p ph = false → p ph' = true →
      ((phs.set q ph').filter p).length = (phs.filter p).length + 1 := by
  intro phs
  induction phs with
  | nil =>
      intro q ph ph' hq _ _
      simp at hq
  | cons a l ih =>
      intro q ph ph' hq hf ht
      cases q with
      | zero =>
          have ha : a = ph := by simpa using hq
          subst ha
          simp only [List.set]
          simp [List.filter_cons, hf, ht]
      | succ n =>
          rw [List.getElem?_cons_succ] at hq
          simp only [List.set]
          cases hpa : p a <;>
            simp [List.filter_cons, hpa, ih n ph ph' hq hf ht]

/-- A gate run does not change the number of processes. -/
theorem gateRun_length : ∀ (sched : List (Nat × Nat)) (lock : Option Nat) (phs : List Phase),
    ((gateRun lock phs sched).2).length = phs.length := by
  intro sched
  induction sched with
  | nil =>
      intro lock phs
      simp [gateRun]
  | cons ev rest ih =>
      intro lock phs
      obtain ⟨q, t⟩ := ev
      simp only [gateRun]
      cases hq : phs[q]? with
      | none => exact ih lock phs
      | some ph => rw [ih, List.length_set]

/-- Invariant of a burst of calls all at instant 0 over an initially
empty lock: either nobody has attempted the `SetNX` yet (lock still
empty, every process in its first two phases), or the lock is installed
with expiry `cooldownTTL` and exactly one process has won. -/
def burstInv (lock : Option Nat) (phs : List Phase) : Prop :=
  (lock = none ∧ ∀ ph ∈ phs, ph = Phase.start ∨ ph = Phase.afterRead) ∨
  (lock = some cooldownTTL ∧ wonCount phs = 1)

/-- One event at instant 0 preserves the burst invariant. -/
theorem burstInv_step (lock : Option Nat) (phs : List Phase) (q : Nat) (ph : Phase)
    (hq : phs[q]? = some ph) (hinv : burstInv lock phs) :
    burstInv (gateStep lock ph 0).1 (phs.set q (gateStep lock ph 0).2) := by
  rcases hinv with ⟨hl, hall⟩ | ⟨hl, hw⟩
  · subst hl
    rcases hall ph (List.getElem?_mem hq) with hs | ha
    · subst hs
      rw [show gateStep none Phase.start 0 = (none, Phase.afterRead) from rfl]
      left
      refine ⟨rfl, ?_⟩
      intro ph' hph'
      rcases List.mem_or_eq_of_mem_set hph' with hm | he
      · exact hall ph' hm
      · exact Or.inr he
    · subst ha
      rw [show gateStep none Phase.afterRead 0 = (some cooldownTTL, Phase.won 0) from by
        simp [gateStep, cooldownTTL]]
      right
      refine ⟨rfl, ?_⟩
      show wonCount (phs.set q (Phase.won 0)) = 1
      have h0 : (phs.filter isWon).length = 0 := by
        rw [List.length_eq_zero, List.filter_eq_nil_iff]
        intro b hb
        rcases hall b hb with h | h <;> subst h <;> simp [isWon]
      have hadd := filter_length_set_add isWon phs q Phase.afterRead (Phase.won 0) hq
        rfl rfl
      unfold wonCount
      omega
  · subst hl
    cases ph with
    | start =>
        rw [show gateStep (some cooldownTTL) Phase.start 0 =
            (some cooldownTTL, Phase.limited 300) from by decide]
        right
        refine ⟨rfl, ?_⟩
        unfold wonCount at *
        rw [filter_length_set_eq isWon phs q Phase.start (Phase.limited 300) hq rfl]
        exact hw
    | afterRead =>
        rw [show gateStep (some cooldownTTL) Phase.afterRead 0 =
            (some cooldownTTL, Phase.limited 300) from by decide]
        right
        refine ⟨rfl, ?_⟩
        unfold wonCount at *
        rw [filter_length_set_eq isWon phs q Phase.afterRead (Phase.limited 300) hq rfl]
        exact hw
    | won t0 =>
        rw [show gateStep (some cooldownTTL) (Phase.won t0) 0 =
            (some cooldownTTL, Phase.won t0) from rfl]
        right
        refine ⟨rfl, ?_⟩
        unfold wonCount at *
        rw [filter_length_set_eq isWon phs q (Phase.won t0) (Phase.won t0) hq rfl]
        exact hw
    | limited r =>
        rw [show gateStep (some cooldownTTL) (Phase.limited r) 0 =
            (some cooldownTTL, Phase.limited r) from rfl]
        right
        refine ⟨rfl, ?_⟩
        unfold wonCount at *
        rw [filter_length_set_eq isWon phs q (Phase.limited r) (Phase.limited r) hq rfl]
        exact hw

/-- A whole schedule of instant-0 events preserves the burst invariant. -/
theorem burstInv_run : ∀ (sched : List (Nat × Nat)), (∀ ev ∈ sched, ev.2 = 0) →
    ∀ (lock : Option Nat) (phs : List Phase), burstInv lock phs →
    burstInv (gateRun lock phs sched).1 (gateRun lock phs sched).2 := by
  intro sched
  induction sched with
  | nil =>
      intro _ lock phs h
      simpa [gateRun] using h
  | cons ev rest ih =>
      intro hz lock phs h
      obtain ⟨q, t⟩ := ev
      have ht : t = 0 := hz (q, t) (List.mem_cons_self _ _)
      subst ht
      simp only [gateRun]
      cases hq : phs[q]? with
      | none => exact ih (fun e he => hz e (List.mem_cons_of_mem _ he)) lock phs h
      | some ph =>
          exact ih (fun e he => hz e (List.mem_cons_of_mem _ he)) _ _
            (burstInv_step lock phs q ph hq h)

/-- In a fully completed list of phases, limited and won counts add up to
the number of processes. -/
theorem limited_add_won (phs : List Phase)
    (h : ∀ ph ∈ phs, isWon ph = true ∨ isLimited ph = true) :
    (phs.filter isLimited).length + wonCount phs = phs.length := by
  induction phs with
  | nil => simp [wonCount]
  | cons a l ih =>
      have ha := h a (List.mem_cons_self _ _)
      have ihl := ih fun ph hm => h ph (List.mem_cons_of_mem _ hm)
      unfold wonCount at *
      cases a <;> simp [isWon, isLimited, List.filter_cons] at ha ⊢ <;> omega

/-- Every win is covered by the current lock: the lock is installed and
expires no earlier than the win instant plus the cooldown TTL. -/
abbrev lockBound (lock : Option Nat) (phs : List Phase) : Prop :=
  ∀ (i ti : Nat), phs[i]? = some (Phase.won ti) → ∃ e, lock = some e ∧ ti + cooldownTTL ≤ e

/-- Any two distinct winning processes won at instants at least one
cooldown TTL apart. -/
abbrev winSep (phs : List Phase) : Prop :=
  ∀ (i j ti tj : Nat), i ≠ j → phs[i]? = some (Phase.won ti) → phs[j]? = some (Phase.won tj) →
    ti + cooldownTTL ≤ tj ∨ tj + cooldownTTL ≤ ti

/-- A lookup of a winning phase in a list whose position `q` was set to a
non-winning phase comes from the untouched part of the list. -/
theorem lookup_won_of_set_nonwon (phs : List Phase) (q : Nat) (ph' : Phase) (i ti : Nat)
    (hnw : ∀ t0, ph' ≠ Phase.won t0)
    (hi : (phs.set q ph')[i]? = some (Phase.won ti)) :
    q ≠ i ∧ phs[i]? = some (Phase.won ti) := by
  by_cases hqi : q = i
  · subst hqi
    exfalso
    by_cases hlen : q < phs.length
    · rw [List.getElem?_set_self hlen] at hi
      exact hnw ti (Option.some.inj hi)
    · rw [List.getElem?_eq_none (by rw [List.length_set]; omega)] at hi
      exact absurd hi (by simp)
  · exact ⟨hqi, by rwa [List.getElem?_set_ne hqi] at hi⟩

/-- Setting a position to a non-winning phase preserves both win
invariants. -/
theorem winInv_set_nonwon (lock : Option Nat) (phs : List Phase) (q : Nat) (ph' : Phase)
    (hnw : ∀ t0, ph' ≠ Phase.won t0)
    (h1 : lockBound lock phs) (h2 : winSep phs) :
    lockBound lock (phs.set q ph') ∧ winSep (phs.set q ph') := by
  constructor
  · intro i ti hi
    exact h1 i ti (lookup_won_of_set_nonwon phs q ph' i ti hnw hi).2
  · intro i j ti tj hij hi hj
    exact h2 i j ti tj hij (lookup_won_of_set_nonwon phs q ph' i ti hnw hi).2
      (lookup_won_of_set_nonwon phs q ph' j tj hnw hj).2

/-- One gate event, at any instant, preserves the win invariants. -/
theorem winInv_step (lock : Option Nat) (phs : List Phase) (q t : Nat) (ph : Phase)
    (hq : phs[q]? = some ph)
    (h1 : lockBound lock phs) (h2 : winSep phs) :
    lockBound (gateStep lock ph t).1 (phs.set q (gateStep lock ph t).2) ∧
    winSep (phs.set q (gateStep lock ph t).2) := by
  cases ph with
  | start =>
      by_cases hc : 0 < ttlAt lock t
      · rw [show gateStep lock Phase.start t = (lock, Phase.limited (ttlAt lock t)) from by
          simp [gateStep, hc]]
        exact winInv_set_nonwon lock phs q _ (fun t0 h => Phase.noConfusion h) h1 h2
      · rw [show gateStep lock Phase.start t = (lock, Phase.afterRead) from by
          simp [gateStep, hc]]
        exact winInv_set_nonwon lock phs q _ (fun t0 h => Phase.noConfusion h) h1 h2
  | afterRead =>
      cases lock with
      | none =>
          rw [show gateStep none Phase.afterRead t = (some (t + cooldownTTL), Phase.won t)
            from rfl]
          constructor
          · show lockBound (some (t + cooldownTTL)) (phs.set q (Phase.won t))
            intro i ti hi
            by_cases hqi : q = i
            · subst hqi
              rw [List.getElem?_set_self (lt_length_of_lookup phs q Phase.afterRead hq)] at hi
              have hti : t = ti := by
                have := Option.some.inj hi
                injection this
              subst hti
              exact ⟨t + cooldownTTL, rfl, Nat.le_refl _⟩
            · rw [List.getElem?_set_ne hqi] at hi
              obtain ⟨e, he, _⟩ := h1 i ti hi
              exact absurd he (by simp)
          · show winSep (phs.set q (Phase.won t))
            intro i j ti tj hij hi hj
            by_cases hqi : q = i
            · subst hqi
              rw [List.getElem?_set_ne hij] at hj
              obtain ⟨e, he, _⟩ := h1 j tj hj
              exact absurd he (by simp)
            · rw [List.getElem?_set_ne hqi] at hi
              obtain ⟨e, he, _⟩ := h1 i ti hi
              exact absurd he (by simp)
      | some e =>
          by_cases hte : t < e
          · rw [show gateStep (some e) Phase.afterRead t =
                (some e, Phase.limited (ttlAt (some e) t)) from by simp [gateStep, hte]]
            exact winInv_set_nonwon (some e) phs q _ (fun t0 h => Phase.noConfusion h) h1 h2
          · rw [show gateStep (some e) Phase.afterRead t =
                (some (t + cooldownTTL), Phase.won t) from by simp [gateStep, hte]]
            have het : e ≤ t := by omega
            constructor
            · show lockBound (some (t + cooldownTTL)) (phs.set q (Phase.won t))
              intro i ti hi
              by_cases hqi : q = i
              · subst hqi
                rw [List.getElem?_set_self (lt_length_of_lookup phs q Phase.afterRead hq)] at hi
                have hti : t = ti := by
                  have := Option.some.inj hi
                  injection this
                subst hti
                exact ⟨t + cooldownTTL, rfl, Nat.le_refl _⟩
              · rw [List.getElem?_set_ne hqi] at hi
                obtain ⟨e0, he0, hle⟩ := h1 i ti hi
                have he0e : e0 = e := (Option.some.inj he0).symm
                subst he0e
                exact ⟨t + cooldownTTL, rfl, by omega⟩
            · show winSep (phs.set q (Phase.won t))
              intro i j ti tj hij hi hj
              by_cases hqi : q = i
              · subst hqi
                rw [List.getElem?_set_self (lt_length_of_lookup phs q Phase.afterRead hq)] at hi
                have hti : t = ti := by
                  have := Option.some.inj hi
                  injection this
                subst hti
                rw [List.getElem?_set_ne hij] at hj
                obtain ⟨e0, he0, hle⟩ := h1 j tj hj
                have he0e : e0 = e := (Option.some.inj he0).symm
                subst he0e
                right
                omega
              · by_cases hqj : q = j
                · subst hqj
                  rw [List.getElem?_set_self (lt_length_of_lookup phs q Phase.afterRead hq)] at hj
                  have htj : t = tj := by
                    have := Option.some.inj hj
                    injection this
                  subst htj
                  rw [List.getElem?_set_ne hqi] at hi
                  obtain ⟨e0, he0, hle⟩ := h1 i ti hi
                  have he0e : e0 = e := (Option.some.inj he0).symm
                  subst he0e
                  left
                  omega
                · rw [List.getElem?_set_ne hqi] at hi
                  rw [List.getElem?_set_ne hqj] at hj
                  exact h2 i j ti tj hij hi hj
  | won t0 =>
      rw [show gateStep lock (Phase.won t0) t = (lock, Phase.won t0) from rfl]
      have hs := set_same_getElem phs q (Phase.won t0) hq
      constructor
      · show lockBound lock (phs.set q (Phase.won t0))
        intro i ti hi
        rw [hs i] at hi
        exact h1 i ti hi
      · show winSep (phs.set q (Phase.won t0))
        intro i j ti tj hij hi hj
        rw [hs i] at hi
        rw [hs j] at hj
        exact h2 i j ti tj hij hi hj
  | limited r =>
      rw [show gateStep lock (Phase.limited r) t = (lock, Phase.limited r) from rfl]
      have hs := set_same_getElem phs q (Phase.limited r) hq
      constructor
      · show lockBound lock (phs.set q (Phase.limited r))
        intro i ti hi
        rw [hs i] at hi
        exact h1 i ti hi
      · show winSep (phs.set q (Phase.limited r))
        intro i j ti tj hij hi hj
        rw [hs i] at hi
        rw [hs j] at hj
        exact h2 i j ti tj hij hi hj

/-- A whole gate run preserves the win invariants. -/
theorem winInv_run : ∀ (sched : List (Nat × Nat)) (lock : Option Nat) (phs : List Phase),
    lockBound lock phs → winSep phs →
    lockBound (gateRun lock phs sched).1 (gateRun lock phs sched).2 ∧
    winSep (gateRun lock phs sched).2 := by
  intro sched
  induction sched with
  | nil =>
      intro lock phs h1 h2
      simpa [gateRun] using ⟨h1, h2⟩
  | cons ev rest ih =>
      intro lock phs h1 h2
      obtain ⟨q, t⟩ := ev
      simp only [gateRun]
      cases hq : phs[q]? with
      | none => exact ih lock phs h1 h2
      | some ph =>
          obtain ⟨g1, g2⟩ := winInv_step lock phs q t ph hq h1 h2
          exact ih _ _ g1 g2

/-- Claim C2: over the shared atomic lock store, (1) any complete
interleaving of `n ≥ 1` concurrent calls at instant 0 against an empty
lock state ends with exactly one call past the gate and the other
`n - 1` calls rate-limited — e.g. 50 calls yield 1 success and 49
rejections; and (2) in any run from an all-fresh start over an empty
lock, any two distinct calls that passed the gate did so at least one
full cooldown TTL apart, i.e. at most one call passes the gate per TTL
window, enforced purely by the `SetNX` atomicity. -/
theorem C2_gate_exclusion :
    (∀ (n : Nat) (sched : List (Nat × Nat)),
      1 ≤ n →
      (∀ ev ∈ sched, ev.2 = 0) →
      (∀ ph ∈ (gateRun none (List.replicate n Phase.start) sched).2,
        isWon ph = true ∨ isLimited ph = true) →
      wonCount (gateRun none (List.replicate n Phase.start) sched).2 = 1 ∧
      ((gateRun none (List.replicate n Phase.start) sched).2.filter isLimited).length
        = n - 1) ∧
    (∀ (phs0 : List Phase) (sched : List (Nat × Nat)),
      (∀ ph ∈ phs0, ph = Phase.start) →
      ∀ (i j ti tj : Nat), i ≠ j →
        ((gateRun none phs0 sched).2)[i]? = some (Phase.won ti) →
        ((gateRun none phs0 sched).2)[j]? = some (Phase.won tj) →
        ti + cooldownTTL ≤ tj ∨ tj + cooldownTTL ≤ ti) := by
  constructor
  · intro n sched hn hz hcomp
    have hinv0 : burstInv none (List.replicate n Phase.start) := by
      left
      exact ⟨rfl, fun ph hm => Or.inl (List.eq_of_mem_replicate hm)⟩
    have hinv := burstInv_run sched hz none (List.replicate n Phase.start) hinv0
    have hlen : ((gateRun none (List.replicate n Phase.start) sched).2).length = n := by
      rw [gateRun_length]
      simp
    rcases hinv with ⟨-, hall⟩ | ⟨-, hw⟩
    · exfalso
      have hne : (gateRun none (List.replicate n Phase.start) sched).2 ≠ [] := by
        intro he
        rw [he] at hlen
        simp at hlen
        omega
      obtain ⟨ph0, hm⟩ := List.exists_mem_of_ne_nil _ hne
      rcases hall ph0 hm with h | h <;> subst h <;>
        rcases hcomp _ hm with hc | hc <;> simp [isWon, isLimited] at hc
    · refine ⟨hw, ?_⟩
      have hpart := limited_add_won _ hcomp
      omega
  · intro phs0 sched h0 i j ti tj hij hi hj
    have hb0 : lockBound none phs0 := by
      intro i0 ti0 hi0
      have := h0 _ (List.getElem?_mem hi0)
      exact absurd this (by simp)
    have hs0 : winSep phs0 := by
      intro i0 j0 ti0 tj0 _ hi0 _
      have := h0 _ (List.getElem?_mem hi0)
      exact absurd this (by simp)
    obtain ⟨-, hsep⟩ := winInv_run sched none phs0 hb0 hs0
    exact hsep i j ti tj hij hi hj

/-- Witness for C2: a complete interleaving of three concurrent calls at
instant 0 ends with one winner and two rejections; and in a run where a
second call arrives 400 seconds after a first winner, the two winning
instants are a full TTL apart. -/
theorem C2_gate_exclusion_witness :
    wonCount (gateRun none (List.replicate 3 Phase.start)
      [(0, 0), (1, 0), (2, 0), (0, 0), (1, 0), (2, 0)]).2 = 1 ∧
    ((gateRun none (List.replicate 3 Phase.start)
      [(0, 0), (1, 0), (2, 0), (0, 0), (1, 0), (2, 0)]).2.filter isLimited).length = 2 ∧
    (0 + cooldownTTL ≤ 400 ∨ 400 + cooldownTTL ≤ 0) := by
  have ha := C2_gate_exclusion.1 3 [(0, 0), (1, 0), (2, 0), (0, 0), (1, 0), (2, 0)]
    (by decide) (by decide) (by decide)
  have hb := C2_gate_exclusion.2 [Phase.start, Phase.start]
    [(0, 0), (0, 0), (1, 400), (1, 400)] (by decide) 0 1 0 400 (by decide)
    (by decide) (by decide)
  exact ⟨ha.1, ha.2, hb⟩
